import Mathlib

/-!
Verification development for the two-phase document sync engine of
`src/app/api/sync-documents/route.ts` (Vercel Blob → Open Web UI knowledge sync).

The route's `POST` handler is embedded shallowly: every external call
(blob listing, content fetch, file upload, status poll, collection add)
is an oracle input, and the handler's control flow, data flow and report
construction are translated directly from the source.  Machine-level
concerns (actual HTTP, timers) are abstracted; the delays are recorded as
constants.  The phase-2 per-item processing in the source is wrapped in an
outer `try` whose `catch` sets `collectionStatus: "error"`; the oracle field
`unexpected` models an exception reaching that handler from outside the
modelled failure taxonomy.
-/

namespace SyncDocs

/-! ## Data model (interfaces `BlobFile`, `UploadedFile`, `SyncResult`) -/

/-- One entry of the Vercel blob listing (`blobs` from `list({token})`). -/
structure BlobFile where
  url : String
  pathname : String
  size : Nat
  uploadedAt : Nat
deriving DecidableEq

/-- One successfully uploaded file (`uploadedFiles` entries in the source). -/
structure UploadedFile where
  id : String
  pathname : String
  size : Nat
  uploadedAt : Nat
deriving DecidableEq

/-- One `results[]` entry (`SyncResult` interface in the source);
`collectionStatus = none` models the JSON value `null`. -/
structure SyncResult where
  file : String
  status : String
  openWebUIId : String
  collectionStatus : Option String
  size : Nat
  uploadedAt : Nat
deriving DecidableEq

/-! ## Content classification (the `switch (fileExtension)` block) -/

/-- Transfer encoding chosen by the switch: `response.text()` vs
`response.arrayBuffer()`. -/
inductive Transfer
  | text
  | binary
deriving DecidableEq

/-- Models JavaScript `s.split(".")` on the character list: splits at every
`'.'`, keeping empty segments, and always returns at least one segment. -/
def splitDot : List Char → List (List Char)
  | [] => [[]]
  | c :: rest =>
    if c = '.' then [] :: splitDot rest
    else
      match splitDot rest with
      | [] => [[c]]
      | seg :: segs => (c :: seg) :: segs

/-- `blob.pathname.split(".").pop()?.toLowerCase()` — the last dot-separated
segment of the path, lowercased (ASCII, matching the filenames in scope).
`pop()` on the never-empty array of segments always yields a value. -/
def fileExtension (pathname : String) : String :=
  String.mk (((splitDot pathname.data).getLastD []).map Char.toLower)

/-- The `switch (fileExtension)` body: content type together with the chosen
transfer encoding; the `default` branch keeps `application/octet-stream`
and reads an array buffer. -/
def classify (pathname : String) : String × Transfer :=
  match fileExtension pathname with
  | "md" => ("text/markdown", Transfer.text)
  | "markdown" => ("text/markdown", Transfer.text)
  | "txt" => ("text/plain", Transfer.text)
  | "json" => ("application/json", Transfer.text)
  | "html" => ("text/html", Transfer.text)
  | "pdf" => ("application/pdf", Transfer.binary)
  | "doc" =>
    ("application/vnd.openxmlformats-officedocument.wordprocessingml.document",
     Transfer.binary)
  | "docx" =>
    ("application/vnd.openxmlformats-officedocument.wordprocessingml.document",
     Transfer.binary)
  | "xls" =>
    ("application/vnd.openxmlformats-officedocument.spreadsheetml.sheet",
     Transfer.binary)
  | "xlsx" =>
    ("application/vnd.openxmlformats-officedocument.spreadsheetml.sheet",
     Transfer.binary)
  | "ppt" =>
    ("application/vnd.openxmlformats-officedocument.presentationml.presentation",
     Transfer.binary)
  | "pptx" =>
    ("application/vnd.openxmlformats-officedocument.presentationml.presentation",
     Transfer.binary)
  | "jpg" => ("image/jpeg", Transfer.binary)
  | "jpeg" => ("image/jpeg", Transfer.binary)
  | "png" => ("image/png", Transfer.binary)
  | "gif" => ("image/gif", Transfer.binary)
  | _ => ("application/octet-stream", Transfer.binary)

/-! ## Phase 1: upload loop -/

/-- Outcome of the `axios.post` upload call for one item:
either the request rejects with an error message, or a response arrives
and `response.data?.id` is the contained optional identifier. -/
inductive UploadResp
  | err (msg : String)
  | ok (id : Option String)
deriving DecidableEq

/-- Oracle for one iteration of the upload loop: whether `fetch(blob.url)`
reported `response.ok` (with its `statusText`), and the upload response. -/
structure UploadOracle where
  fetchOk : Bool
  fetchStatusText : String
  uploadResp : UploadResp
deriving DecidableEq

/-- Result of one iteration of the phase-1 loop body: the `try` block either
pushes an `UploadedFile` and a `SyncResult`, or the `catch` pushes an
`uploadErrors` entry `(file, error message)`. -/
inductive ItemUpload
  | success (uf : UploadedFile) (res : SyncResult)
  | failure (e : String × String)
deriving DecidableEq

/-- One iteration of the phase-1 `for (const blob of blobs)` body:
a non-ok fetch throws `Failed to fetch blob content: ...`; a missing
`response.data?.id` throws `Failed to get file ID from upload response`;
otherwise the item is recorded as `status: "uploaded"`,
`collectionStatus: null`. -/
def uploadOne (blob : BlobFile) (orc : UploadOracle) : ItemUpload :=
  if orc.fetchOk then
    match orc.uploadResp with
    | UploadResp.err msg => ItemUpload.failure (blob.pathname, msg)
    | UploadResp.ok none =>
      ItemUpload.failure (blob.pathname, "Failed to get file ID from upload response")
    | UploadResp.ok (some fileId) =>
      ItemUpload.success
        ⟨fileId, blob.pathname, blob.size, blob.uploadedAt⟩
        ⟨blob.pathname, "uploaded", fileId, none, blob.size, blob.uploadedAt⟩
  else
    ItemUpload.failure
      (blob.pathname, "Failed to fetch blob content: " ++ orc.fetchStatusText)

/-- The three accumulators of phase 1 (`uploadResults`, `uploadErrors`,
`uploadedFiles`). -/
structure Phase1Out where
  uploadResults : List SyncResult
  uploadErrors : List (String × String)
  uploadedFiles : List UploadedFile
deriving DecidableEq

/-- The phase-1 loop over the listing, pushing to the three accumulators in
listing order; `i` is the position of the current blob in the listing and
indexes the per-item oracle. -/
def phase1Go : List BlobFile → Nat → (Nat → UploadOracle) → Phase1Out
  | [], _, _ => ⟨[], [], []⟩
  | b :: rest, i, u =>
    match uploadOne b (u i) with
    | ItemUpload.success uf res =>
      ⟨res :: (phase1Go rest (i + 1) u).uploadResults,
       (phase1Go rest (i + 1) u).uploadErrors,
       uf :: (phase1Go rest (i + 1) u).uploadedFiles⟩
    | ItemUpload.failure e =>
      ⟨(phase1Go rest (i + 1) u).uploadResults,
       e :: (phase1Go rest (i + 1) u).uploadErrors,
       (phase1Go rest (i + 1) u).uploadedFiles⟩

/-! ## Phase 2: readiness polling and collection assignment -/

/-- The `data` object of a file-status response: its optional `status`
string and optional extracted `content`. -/
structure FileStatusData where
  status : Option String
  content : Option String
deriving DecidableEq

/-- Outcome of one `axios.get` status poll: a transport-level rejection
(caught by the inner `catch`, which `break`s) or a response body. -/
inductive StatusAttempt
  | transportError
  | response (d : FileStatusData)
deriving DecidableEq

/-- `content && content.trim().length > 0`: the content string exists and
contains a non-whitespace character. -/
def hasNonWhitespace (s : String) : Bool :=
  s.data.any (fun c => !(c = ' ' || c = '\t' || c = '\n' || c = '\r'))

/-- `isProcessed && hasContent` for one status response:
`fileData.data?.status === "completed"` together with non-blank content. -/
def isReadyData (d : FileStatusData) : Bool :=
  decide (d.status = some "completed") &&
    (match d.content with
     | some c => hasNonWhitespace c
     | none => false)

/-- `maxAttempts = 6` in the source. -/
def maxAttempts : Nat := 6

/-- The batch settling delay before the first poll (`processingDelayMs`). -/
def processingDelayMs : Nat := 5000

/-- The inter-attempt delay inside the poll loop (`setTimeout(..., 3000)`). -/
def retryDelayMs : Nat := 3000

/-- The `while (!fileReady && attempts < maxAttempts)` loop, with
`remaining = maxAttempts - attempts` as the structural measure.  Each
iteration increments `attempts` and polls attempt number `attempts`;
a transport error breaks immediately with `fileReady = false`; a ready
response stops with `fileReady = true`; otherwise the loop retries.
Returns `(fileReady, attempts)` at loop exit. -/
def pollLoop (f : Nat → StatusAttempt) : Nat → Nat → Bool × Nat
  | 0, attempts => (false, attempts)
  | remaining + 1, attempts =>
    match f (attempts + 1) with
    | StatusAttempt.transportError => (false, attempts + 1)
    | StatusAttempt.response d =>
      if isReadyData d then (true, attempts + 1)
      else pollLoop f remaining (attempts + 1)

/-- The whole poll loop for one item, starting from `attempts = 0`. -/
def pollFrom (f : Nat → StatusAttempt) : Bool × Nat :=
  pollLoop f maxAttempts 0

/-- Oracle for one item's phase-2 processing: the status responses per
attempt number, whether the `knowledge/.../file/add` call succeeds, and
whether an exception outside the modelled failure taxonomy reaches the
item's outer `catch` (which sets `collectionStatus: "error"`). -/
structure CollectOracle where
  statusAt : Nat → StatusAttempt
  addOk : Bool
  unexpected : Bool

/-- What one item's phase-2 processing writes and calls. -/
structure ItemOutcome where
  status : String
  statusCalls : Nat
  addCalls : Nat
deriving DecidableEq

/-- One iteration of the phase-2 `for` body, reduced to the
`collectionStatus` it writes and the number of status / add calls it
issues: the outer `catch` writes `"error"`; a not-ready poll outcome
writes `"not-processed"` and `continue`s before the add call; otherwise
the add call is issued once and its success decides `"added"` vs
`"collection-failed"`. -/
def phase2ItemStatus (orc : CollectOracle) : ItemOutcome :=
  if orc.unexpected then ⟨"error", 0, 0⟩
  else if (pollFrom orc.statusAt).1 then
    if orc.addOk then ⟨"added", (pollFrom orc.statusAt).2, 1⟩
    else ⟨"collection-failed", (pollFrom orc.statusAt).2, 1⟩
  else ⟨"not-processed", (pollFrom orc.statusAt).2, 0⟩

/-- `finalResults.findIndex((r) => r.openWebUIId === id)` followed by the
in-place `{...finalResults[resultIndex], collectionStatus}` update: the
first entry whose `openWebUIId` matches is replaced by a copy with the new
`collectionStatus`; with no match the list is unchanged. -/
def updateFirst : List SyncResult → String → Option String → List SyncResult
  | [], _, _ => []
  | r :: rest, id, st =>
    if r.openWebUIId = id then { r with collectionStatus := st } :: rest
    else r :: updateFirst rest id st

/-- The phase-2 loop over `uploadedFiles`, threading the mutable
`finalResults` array; `i` indexes the per-item oracle. -/
def phase2Go : List UploadedFile → Nat → (Nat → CollectOracle) → List SyncResult →
    List SyncResult
  | [], _, _, rs => rs
  | uf :: rest, i, co, rs =>
    phase2Go rest (i + 1) co
      (updateFirst rs uf.id (some (phase2ItemStatus (co i)).status))

/-- The per-item call counts of phase 2 (ghost instrumentation of the
status and add calls issued), in `uploadedFiles` order. -/
structure ItemTrace where
  id : String
  statusCalls : Nat
  addCalls : Nat
deriving DecidableEq

/-- The calls issued by the phase-2 loop, one trace per uploaded file. -/
def phase2Traces : List UploadedFile → Nat → (Nat → CollectOracle) → List ItemTrace
  | [], _, _ => []
  | uf :: rest, i, co =>
    ⟨uf.id, (phase2ItemStatus (co i)).statusCalls, (phase2ItemStatus (co i)).addCalls⟩ ::
      phase2Traces rest (i + 1) co

/-! ## Top level: environment check, listing, report -/

/-- The final `summary` object returned on success. -/
structure Summary where
  totalFiles : Nat
  successful : Nat
  failed : Nat
  addedToCollection : Nat
  timestamp : Nat
  results : List SyncResult
  errors : List (String × String)
deriving DecidableEq

/-- The three JSON response shapes of the handler (after the auth gate,
which the spec scopes out of the sync core): the missing-env-vars 500
(`{error}` only), the catch-all 500 (`{error, details, timestamp}`), and
the 200 report. -/
inductive SyncResponse
  | configError (missing : List String)
  | fatal (details : String) (timestamp : Nat)
  | report (s : Summary)
deriving DecidableEq

/-- The environment variables the handler reads; `none` models an unset
variable. -/
structure Config where
  blobToken : Option String
  baseUrl : Option String
  apiKey : Option String
  collectionId : Option String
deriving DecidableEq

/-- JavaScript truthiness of an env var: set and non-empty. -/
def envTruthy : Option String → Bool
  | some s => decide (s ≠ "")
  | none => false

/-- `[!A && "A", ...].filter(Boolean)` over the three required variables. -/
def missingEnvVars (c : Config) : List String :=
  ([(envTruthy c.blobToken, "BLOB_READ_WRITE_TOKEN"),
    (envTruthy c.baseUrl, "OPEN_WEB_UI_BASE_URL"),
    (envTruthy c.apiKey, "OPEN_WEB_UI_API_KEY")]).filterMap
    (fun p => if p.1 then none else some p.2)

/-- Oracle for one whole run: the blob listing (or the `ListingError` it
throws), the per-item upload oracles by listing position, the per-item
phase-2 oracles by `uploadedFiles` position, and the clock value used for
the report / fatal timestamp. -/
structure RunOracle where
  listing : Except String (List BlobFile)
  upload : Nat → UploadOracle
  collect : Nat → CollectOracle
  now : Nat

/-- `KNOWLEDGE_COLLECTION_ID && uploadedFiles.length > 0`. -/
def phase2Enabled (env : Config) (p1 : Phase1Out) : Bool :=
  envTruthy env.collectionId && decide (0 < p1.uploadedFiles.length)

/-- The `finalResults` array at the end of phase 2: the phase-2 loop when
it runs, otherwise `uploadResults` with every `collectionStatus` forced to
`null` (the `forEach` in the `else` branch). -/
def finalResultsOf (env : Config) (o : RunOracle) (blobs : List BlobFile) :
    List SyncResult :=
  if phase2Enabled env (phase1Go blobs 0 o.upload) then
    phase2Go (phase1Go blobs 0 o.upload).uploadedFiles 0 o.collect
      (phase1Go blobs 0 o.upload).uploadResults
  else
    (phase1Go blobs 0 o.upload).uploadResults.map
      (fun r => { r with collectionStatus := none })

/-- The phase-2 call traces of a run ([] when phase 2 is skipped). -/
def runTracesOf (env : Config) (o : RunOracle) (blobs : List BlobFile) :
    List ItemTrace :=
  if phase2Enabled env (phase1Go blobs 0 o.upload) then
    phase2Traces (phase1Go blobs 0 o.upload).uploadedFiles 0 o.collect
  else []

/-- The `summary` object: counters by linear scan over `finalResults`,
errors from `uploadErrors`. -/
def buildSummary (env : Config) (o : RunOracle) (blobs : List BlobFile) : Summary :=
  ⟨blobs.length,
   ((finalResultsOf env o blobs).filter (fun r => decide (r.status = "uploaded"))).length,
   (phase1Go blobs 0 o.upload).uploadErrors.length,
   ((finalResultsOf env o blobs).filter
     (fun r => decide (r.collectionStatus = some "added"))).length,
   o.now,
   finalResultsOf env o blobs,
   (phase1Go blobs 0 o.upload).uploadErrors⟩

/-- The handler body after the auth gate: missing env vars short-circuit
with the `{error}` 500; a listing failure reaches the catch-all and yields
the `{error, details, timestamp}` 500; otherwise the two phases run and
the report is returned. -/
def runSync (env : Config) (o : RunOracle) : SyncResponse :=
  if 0 < (missingEnvVars env).length then SyncResponse.configError (missingEnvVars env)
  else
    match o.listing with
    | Except.error e => SyncResponse.fatal e o.now
    | Except.ok blobs => SyncResponse.report (buildSummary env o blobs)

/-- The phase-2 calls issued by a run (ghost observation alongside
`runSync`). -/
def runCalls (env : Config) (o : RunOracle) : List ItemTrace :=
  if 0 < (missingEnvVars env).length then []
  else
    match o.listing with
    | Except.error _ => []
    | Except.ok blobs => runTracesOf env o blobs

/-- Whether the JSON body of a response shape contains a `timestamp`
field: the report and the catch-all error do, the missing-env-vars error
does not. -/
def responseHasTimestamp : SyncResponse → Bool
  | SyncResponse.configError _ => false
  | SyncResponse.fatal _ _ => true
  | SyncResponse.report _ => true

/-! ## Claim-side definitions (phrased from the spec, for comparison) -/

/-- Modelled from the spec: the fixed extension table of §4.1, keyed on an
extension string (one definition per spec words, compared against
`classify`). -/
def classifyTable (ext : String) : String × Transfer :=
  match ext with
  | "md" => ("text/markdown", Transfer.text)
  | "markdown" => ("text/markdown", Transfer.text)
  | "txt" => ("text/plain", Transfer.text)
  | "json" => ("application/json", Transfer.text)
  | "html" => ("text/html", Transfer.text)
  | "pdf" => ("application/pdf", Transfer.binary)
  | "doc" =>
    ("application/vnd.openxmlformats-officedocument.wordprocessingml.document",
     Transfer.binary)
  | "docx" =>
    ("application/vnd.openxmlformats-officedocument.wordprocessingml.document",
     Transfer.binary)
  | "xls" =>
    ("application/vnd.openxmlformats-officedocument.spreadsheetml.sheet",
     Transfer.binary)
  | "xlsx" =>
    ("application/vnd.openxmlformats-officedocument.spreadsheetml.sheet",
     Transfer.binary)
  | "ppt" =>
    ("application/vnd.openxmlformats-officedocument.presentationml.presentation",
     Transfer.binary)
  | "pptx" =>
    ("application/vnd.openxmlformats-officedocument.presentationml.presentation",
     Transfer.binary)
  | "jpg" => ("image/jpeg", Transfer.binary)
  | "jpeg" => ("image/jpeg", Transfer.binary)
  | "png" => ("image/png", Transfer.binary)
  | "gif" => ("image/gif", Transfer.binary)
  | _ => ("application/octet-stream", Transfer.binary)

/-- The extensions named by the classifier table. -/
def knownExtensions : List String :=
  ["md", "markdown", "txt", "json", "html", "pdf", "doc", "docx",
   "xls", "xlsx", "ppt", "pptx", "jpg", "jpeg", "png", "gif"]

/-- The pathnames of the items whose upload succeeds, in listing order. -/
def successPaths : List BlobFile → Nat → (Nat → UploadOracle) → List String
  | [], _, _ => []
  | b :: rest, i, u =>
    match uploadOne b (u i) with
    | ItemUpload.success _ _ => b.pathname :: successPaths rest (i + 1) u
    | ItemUpload.failure _ => successPaths rest (i + 1) u

/-- The pathnames of the items whose upload fails, in listing order. -/
def failPaths : List BlobFile → Nat → (Nat → UploadOracle) → List String
  | [], _, _ => []
  | b :: rest, i, u =>
    match uploadOne b (u i) with
    | ItemUpload.success _ _ => failPaths rest (i + 1) u
    | ItemUpload.failure _ => b.pathname :: failPaths rest (i + 1) u

/-- The value of `finalResults` predicted entry-wise from the phase-1
results and the per-item phase-2 oracles (distinct remote ids assumed):
entry `k` is the phase-1 entry with `collectionStatus` overwritten by item
`k`'s phase-2 outcome. -/
def phase2Expected : List SyncResult → (Nat → CollectOracle) → Nat → List SyncResult
  | [], _, _ => []
  | r :: rest, co, i =>
    { r with collectionStatus := some (phase2ItemStatus (co i)).status } ::
      phase2Expected rest co (i + 1)

/-- Claim C1 as stated: `results[]` has exactly one entry (matched by file
name) for every listed source item, having succeeded or failed. -/
def resultsCoverAllItems (blobs : List BlobFile) (s : Summary) : Prop :=
  ∀ b ∈ blobs, ∃! r : SyncResult, r ∈ s.results ∧ r.file = b.pathname

/-! ## Concrete runs used as witnesses and counterexamples -/

/-- A markdown blob. -/
def sampleBlob : BlobFile := ⟨"https://x/a.md", "a.md", 3, 5⟩

/-- A second, text blob. -/
def blobB : BlobFile := ⟨"https://x/b.txt", "b.txt", 4, 6⟩

/-- All variables set, collection id configured. -/
def envFull : Config := ⟨some "tok", some "url", some "key", some "coll"⟩

/-- All required variables set, no collection id. -/
def envNoColl : Config := ⟨some "tok", some "url", some "key", none⟩

/-- The blob token unset. -/
def envMissing : Config := ⟨none, some "url", some "key", none⟩

/-- A clean upload yielding remote id f1. -/
def okUpload : UploadOracle := ⟨true, "OK", UploadResp.ok (some "f1")⟩

/-- A clean upload yielding remote id f2. -/
def okUpload2 : UploadOracle := ⟨true, "OK", UploadResp.ok (some "f2")⟩

/-- An upload whose `axios.post` rejects. -/
def failUpload : UploadOracle := ⟨true, "OK", UploadResp.err "network down"⟩

/-- A status body still processing. -/
def pendingData : FileStatusData := ⟨some "pending", none⟩

/-- A status body processed with content. -/
def readyData : FileStatusData := ⟨some "completed", some "text"⟩

/-- Polling that never reports ready. -/
def pendingCollect : CollectOracle :=
  ⟨fun _ => StatusAttempt.response pendingData, true, false⟩

/-- Polling ready at once, add call succeeding. -/
def readyCollect : CollectOracle :=
  ⟨fun _ => StatusAttempt.response readyData, true, false⟩

/-- Polling ready at once, add call failing. -/
def addFailCollect : CollectOracle :=
  ⟨fun _ => StatusAttempt.response readyData, false, false⟩

/-- An exception outside the modelled taxonomy reaches the outer catch. -/
def errorCollect : CollectOracle :=
  ⟨fun _ => StatusAttempt.response pendingData, true, true⟩

/-- First attempt pending, second attempt a transport error. -/
def transportCollect : CollectOracle :=
  ⟨fun n => if n = 2 then StatusAttempt.transportError
            else StatusAttempt.response pendingData, true, false⟩

/-- One successful upload per position. -/
def uAllOk : Nat → UploadOracle := fun i => if i = 0 then okUpload else okUpload2

/-- Position 0 fails, later positions succeed. -/
def uMixed : Nat → UploadOracle := fun i => if i = 0 then failUpload else okUpload2

/-- One blob, upload ok, never ready. -/
def oraPending : RunOracle :=
  ⟨Except.ok [sampleBlob], fun _ => okUpload, fun _ => pendingCollect, 7⟩

/-- One blob, upload fails. -/
def oraFail : RunOracle :=
  ⟨Except.ok [sampleBlob], fun _ => failUpload, fun _ => pendingCollect, 7⟩

/-- Two blobs, first upload fails, second succeeds. -/
def oraMixed : RunOracle :=
  ⟨Except.ok [sampleBlob, blobB], uMixed, fun _ => pendingCollect, 7⟩

/-- One blob, upload ok, ready but the add call fails. -/
def oraAddFail : RunOracle :=
  ⟨Except.ok [sampleBlob], fun _ => okUpload, fun _ => addFailCollect, 7⟩

/-- One blob, upload ok, phase-2 outer catch triggered. -/
def oraErrRun : RunOracle :=
  ⟨Except.ok [sampleBlob], fun _ => okUpload, fun _ => errorCollect, 7⟩

/-- One blob, upload ok, status poll dies with a transport error. -/
def oraTransport : RunOracle :=
  ⟨Except.ok [sampleBlob], fun _ => okUpload, fun _ => transportCollect, 7⟩

/-- An empty listing. -/
def oraEmpty : RunOracle :=
  ⟨Except.ok [], fun _ => okUpload, fun _ => pendingCollect, 0⟩

/-! ## Lemmas about the upload stage -/

/-- A successful `uploadOne` records exactly the pushed `UploadedFile` and
`SyncResult` of the source, sharing the file id, with `status: "uploaded"`
and `collectionStatus: null`. -/
theorem uploadOne_success_shape (b : BlobFile) (orc : UploadOracle)
    (uf : UploadedFile) (res : SyncResult)
    (h : uploadOne b orc = ItemUpload.success uf res) :
    uf = ⟨uf.id, b.pathname, b.size, b.uploadedAt⟩ ∧
    res = ⟨b.pathname, "uploaded", uf.id, none, b.size, b.uploadedAt⟩ ∧
    orc.fetchOk = true ∧ orc.uploadResp = UploadResp.ok (some uf.id) := by
  unfold uploadOne at h
  cases hf : orc.fetchOk with
  | false => rw [hf] at h; simp at h
  | true =>
    rw [hf] at h
    simp only [if_true] at h
    cases hr : orc.uploadResp with
    | err msg => rw [hr] at h; simp at h
    | ok id =>
      cases id with
      | none => rw [hr] at h; simp at h
      | some fileId =>
        rw [hr] at h
        simp only [ItemUpload.success.injEq] at h
        obtain ⟨h1, h2⟩ := h
        subst h1
        subst h2
        exact ⟨rfl, rfl, rfl, rfl⟩

/-- A failed `uploadOne` records the blob's pathname in the error entry. -/
theorem uploadOne_failure_shape (b : BlobFile) (orc : UploadOracle)
    (e : String × String) (h : uploadOne b orc = ItemUpload.failure e) :
    e.1 = b.pathname := by
  unfold uploadOne at h
  cases hf : orc.fetchOk with
  | false =>
    rw [hf] at h
    simp only [Bool.false_eq_true, if_false, ItemUpload.failure.injEq] at h
    rw [← h]
  | true =>
    rw [hf] at h
    simp only [if_true] at h
    cases hr : orc.uploadResp with
    | err msg =>
      rw [hr] at h
      simp only [ItemUpload.failure.injEq] at h
      rw [← h]
    | ok id =>
      cases id with
      | none =>
        rw [hr] at h
        simp only [ItemUpload.failure.injEq] at h
        rw [← h]
      | some fileId => rw [hr] at h; simp at h

/-- Exactly one outcome per listed item: results and errors partition the
listing. -/
theorem phase1Go_count : ∀ (bs : List BlobFile) (i : Nat) (u : Nat → UploadOracle),
    (phase1Go bs i u).uploadResults.length + (phase1Go bs i u).uploadErrors.length
      = bs.length := by
  intro bs
  induction bs with
  | nil => intro i u; rfl
  | cons b rest ih =>
    intro i u
    cases h : uploadOne b (u i) with
    | success uf res =>
      simp only [phase1Go, h, List.length_cons]
      have := ih (i + 1) u
      omega
    | failure e =>
      simp only [phase1Go, h, List.length_cons]
      have := ih (i + 1) u
      omega

/-- Every phase-1 result entry has `status = "uploaded"` and
`collectionStatus = null`. -/
theorem phase1Go_status : ∀ (bs : List BlobFile) (i : Nat) (u : Nat → UploadOracle),
    ∀ r ∈ (phase1Go bs i u).uploadResults,
      r.status = "uploaded" ∧ r.collectionStatus = none := by
  intro bs
  induction bs with
  | nil => intro i u r hr; simp [phase1Go] at hr
  | cons b rest ih =>
    intro i u r hr
    cases h : uploadOne b (u i) with
    | success uf res =>
      simp only [phase1Go, h, List.mem_cons] at hr
      cases hr with
      | inl he =>
        obtain ⟨-, hres, -, -⟩ := uploadOne_success_shape b (u i) uf res h
        rw [he, hres]
        exact ⟨rfl, rfl⟩
      | inr hm => exact ih (i + 1) u r hm
    | failure e =>
      simp only [phase1Go, h] at hr
      exact ih (i + 1) u r hr

/-- The result entries and uploaded-file entries are pushed together and
carry the same remote ids, in the same order. -/
theorem phase1Go_ids : ∀ (bs : List BlobFile) (i : Nat) (u : Nat → UploadOracle),
    (phase1Go bs i u).uploadResults.map (fun r => r.openWebUIId)
      = (phase1Go bs i u).uploadedFiles.map (fun f => f.id) := by
  intro bs
  induction bs with
  | nil => intro i u; rfl
  | cons b rest ih =>
    intro i u
    cases h : uploadOne b (u i) with
    | success uf res =>
      simp only [phase1Go, h, List.map_cons]
      obtain ⟨-, hres, -, -⟩ := uploadOne_success_shape b (u i) uf res h
      rw [hres]
      exact congrArg (List.cons uf.id) (ih (i + 1) u)
    | failure e =>
      simp only [phase1Go, h]
      exact ih (i + 1) u

/-- The file names of the result entries are exactly the successful
pathnames, in listing order. -/
theorem phase1Go_results_files :
    ∀ (bs : List BlobFile) (i : Nat) (u : Nat → UploadOracle),
    (phase1Go bs i u).uploadResults.map (fun r => r.file) = successPaths bs i u := by
  intro bs
  induction bs with
  | nil => intro i u; rfl
  | cons b rest ih =>
    intro i u
    cases h : uploadOne b (u i) with
    | success uf res =>
      simp only [phase1Go, successPaths, h, List.map_cons]
      obtain ⟨-, hres, -, -⟩ := uploadOne_success_shape b (u i) uf res h
      rw [hres]
      exact congrArg (List.cons b.pathname) (ih (i + 1) u)
    | failure e =>
      simp only [phase1Go, successPaths, h]
      exact ih (i + 1) u

/-- The file names of the error entries are exactly the failing pathnames,
in listing order. -/
theorem phase1Go_errors_files :
    ∀ (bs : List BlobFile) (i : Nat) (u : Nat → UploadOracle),
    (phase1Go bs i u).uploadErrors.map Prod.fst = failPaths bs i u := by
  intro bs
  induction bs with
  | nil => intro i u; rfl
  | cons b rest ih =>
    intro i u
    cases h : uploadOne b (u i) with
    | success uf res =>
      simp only [phase1Go, failPaths, h]
      exact ih (i + 1) u
    | failure e =>
      simp only [phase1Go, failPaths, h, List.map_cons]
      rw [uploadOne_failure_shape b (u i) e h]
      exact congrArg (List.cons b.pathname) (ih (i + 1) u)

/-- The successful pathnames are a subsequence of the listing order. -/
theorem successPaths_sublist :
    ∀ (bs : List BlobFile) (i : Nat) (u : Nat → UploadOracle),
    (successPaths bs i u).Sublist (bs.map (fun b => b.pathname)) := by
  intro bs
  induction bs with
  | nil => intro i u; simp [successPaths]
  | cons b rest ih =>
    intro i u
    cases h : uploadOne b (u i) with
    | success uf res =>
      simp only [successPaths, h, List.map_cons]
      exact List.Sublist.cons₂ b.pathname (ih (i + 1) u)
    | failure e =>
      simp only [successPaths, h, List.map_cons]
      exact List.Sublist.cons b.pathname (ih (i + 1) u)

/-- A per-item success at position `k` lands in the results and
uploaded-files accumulators, whatever the other items do. -/
theorem phase1Go_mem_success :
    ∀ (bs : List BlobFile) (i k : Nat) (hk : k < bs.length)
      (u : Nat → UploadOracle) (uf : UploadedFile) (res : SyncResult),
      uploadOne (bs.get ⟨k, hk⟩) (u (i + k)) = ItemUpload.success uf res →
      res ∈ (phase1Go bs i u).uploadResults ∧ uf ∈ (phase1Go bs i u).uploadedFiles := by
  intro bs
  induction bs with
  | nil => intro i k hk; simp at hk
  | cons b rest ih =>
    intro i k hk u uf res h
    cases k with
    | zero =>
      have hb : (b :: rest).get ⟨0, hk⟩ = b := rfl
      rw [hb, Nat.add_zero] at h
      simp only [phase1Go, h]
      exact ⟨List.mem_cons_self _ _, List.mem_cons_self _ _⟩
    | succ k' =>
      have hk' : k' < rest.length := by simpa using hk
      have hb : (b :: rest).get ⟨k' + 1, hk⟩ = rest.get ⟨k', hk'⟩ := rfl
      have harith : i + (k' + 1) = (i + 1) + k' := by omega
      rw [hb, harith] at h
      have h' := h
      have hmem := ih (i + 1) k' hk' u uf res h'
      cases hcase : uploadOne b (u i) with
      | success uf0 res0 =>
        simp only [phase1Go, hcase, List.mem_cons]
        exact ⟨Or.inr hmem.1, Or.inr hmem.2⟩
      | failure e0 =>
        simp only [phase1Go, hcase]
        exact hmem

/-- A per-item failure at position `k` lands in the error accumulator,
whatever the other items do. -/
theorem phase1Go_mem_failure :
    ∀ (bs : List BlobFile) (i k : Nat) (hk : k < bs.length)
      (u : Nat → UploadOracle) (e : String × String),
      uploadOne (bs.get ⟨k, hk⟩) (u (i + k)) = ItemUpload.failure e →
      e ∈ (phase1Go bs i u).uploadErrors := by
  intro bs
  induction bs with
  | nil => intro i k hk; simp at hk
  | cons b rest ih =>
    intro i k hk u e h
    cases k with
    | zero =>
      have hb : (b :: rest).get ⟨0, hk⟩ = b := rfl
      rw [hb, Nat.add_zero] at h
      simp only [phase1Go, h]
      exact List.mem_cons_self _ _
    | succ k' =>
      have hk' : k' < rest.length := by simpa using hk
      have hb : (b :: rest).get ⟨k' + 1, hk⟩ = rest.get ⟨k', hk'⟩ := rfl
      have harith : i + (k' + 1) = (i + 1) + k' := by omega
      rw [hb, harith] at h
      have h' := h
      have hmem := ih (i + 1) k' hk' u e h'
      cases hcase : uploadOne b (u i) with
      | success uf0 res0 =>
        simp only [phase1Go, hcase]
        exact hmem
      | failure e0 =>
        simp only [phase1Go, hcase, List.mem_cons]
        exact Or.inr hmem

/-! ## Lemmas about the collection phase -/

/-- The in-place `collectionStatus` update touches no other field: any
projection that ignores `collectionStatus` is preserved. -/
theorem updateFirst_map {α : Type} (g : SyncResult → α)
    (hg : ∀ (r : SyncResult) (c : Option String),
      g { r with collectionStatus := c } = g r) :
    ∀ (rs : List SyncResult) (id : String) (st : Option String),
      (updateFirst rs id st).map g = rs.map g := by
  intro rs id st
  induction rs with
  | nil => rfl
  | cons r rest ih =>
    by_cases h : r.openWebUIId = id
    · simp only [updateFirst, if_pos h, List.map_cons, hg]
    · simp only [updateFirst, if_neg h, List.map_cons, ih]

/-- Every entry after an update is an original entry or an original entry
with a replaced `collectionStatus`. -/
theorem updateFirst_mem (rs : List SyncResult) (id : String) (st : Option String) :
    ∀ r' ∈ updateFirst rs id st,
      r' ∈ rs ∨ ∃ r ∈ rs, r' = { r with collectionStatus := st } := by
  induction rs with
  | nil => intro r' hr'; simp [updateFirst] at hr'
  | cons r rest ih =>
    intro r' hr'
    by_cases h : r.openWebUIId = id
    · rw [updateFirst, if_pos h] at hr'
      cases hr' with
      | head => exact Or.inr ⟨r, List.mem_cons_self _ _, rfl⟩
      | tail _ hm => exact Or.inl (List.mem_cons_of_mem _ hm)
    · rw [updateFirst, if_neg h] at hr'
      cases hr' with
      | head => exact Or.inl (List.mem_cons_self _ _)
      | tail _ hm =>
        cases ih r' hm with
        | inl hin => exact Or.inl (List.mem_cons_of_mem _ hin)
        | inr hex =>
          obtain ⟨r0, hr0, he⟩ := hex
          exact Or.inr ⟨r0, List.mem_cons_of_mem _ hr0, he⟩

/-- Projections ignoring `collectionStatus` pass through the whole
phase-2 loop unchanged. -/
theorem phase2Go_map {α : Type} (g : SyncResult → α)
    (hg : ∀ (r : SyncResult) (c : Option String),
      g { r with collectionStatus := c } = g r) :
    ∀ (ufs : List UploadedFile) (i : Nat) (co : Nat → CollectOracle)
      (rs : List SyncResult),
      (phase2Go ufs i co rs).map g = rs.map g := by
  intro ufs
  induction ufs with
  | nil => intro i co rs; rfl
  | cons uf rest ih =>
    intro i co rs
    simp only [phase2Go]
    rw [ih (i + 1) co _, updateFirst_map g hg]

/-- Every final entry is a phase-1 entry, possibly with its
`collectionStatus` overwritten by some item's phase-2 outcome. -/
theorem phase2Go_mem :
    ∀ (ufs : List UploadedFile) (i : Nat) (co : Nat → CollectOracle)
      (rs : List SyncResult), ∀ r' ∈ phase2Go ufs i co rs,
      r' ∈ rs ∨ ∃ r ∈ rs, ∃ k : Nat,
        r' = { r with collectionStatus := some (phase2ItemStatus (co k)).status } := by
  intro ufs
  induction ufs with
  | nil =>
    intro i co rs r' hr'
    exact Or.inl hr'
  | cons uf rest ih =>
    intro i co rs r' hr'
    simp only [phase2Go] at hr'
    cases ih (i + 1) co _ r' hr' with
    | inl hin =>
      cases updateFirst_mem rs uf.id _ r' hin with
      | inl h0 => exact Or.inl h0
      | inr h0 =>
        obtain ⟨r, hr, he⟩ := h0
        exact Or.inr ⟨r, hr, i, he⟩
    | inr hex =>
      obtain ⟨r, hr, k, he⟩ := hex
      cases updateFirst_mem rs uf.id _ r hr with
      | inl h0 => exact Or.inr ⟨r, h0, k, he⟩
      | inr h0 =>
        obtain ⟨r0, hr0, he0⟩ := h0
        refine Or.inr ⟨r0, hr0, k, ?_⟩
        rw [he, he0]

/-- A head entry whose remote id matches no processed item passes through
the phase-2 loop untouched. -/
theorem phase2Go_cons_frozen (r : SyncResult) :
    ∀ (ufs : List UploadedFile) (i : Nat) (co : Nat → CollectOracle)
      (rs : List SyncResult),
      (∀ uf ∈ ufs, uf.id ≠ r.openWebUIId) →
      phase2Go ufs i co (r :: rs) = r :: phase2Go ufs i co rs := by
  intro ufs
  induction ufs with
  | nil => intro i co rs _; rfl
  | cons uf rest ih =>
    intro i co rs h
    have hne : ¬ r.openWebUIId = uf.id := by
      intro he
      exact h uf (List.mem_cons_self _ _) he.symm
    simp only [phase2Go, updateFirst, if_neg hne]
    exact ih (i + 1) co _ (fun uf' h' => h uf' (List.mem_cons_of_mem _ h'))

/-- With pairwise-distinct remote ids aligned between `uploadResults` and
`uploadedFiles` (the source pushes them together; the spec's §3 invariant
makes ids unique), the phase-2 loop rewrites entry `k`'s
`collectionStatus` with item `k`'s outcome, and nothing else. -/
theorem phase2Go_expected :
    ∀ (ufs : List UploadedFile) (rs : List SyncResult) (i : Nat)
      (co : Nat → CollectOracle),
      rs.map (fun r => r.openWebUIId) = ufs.map (fun uf => uf.id) →
      (ufs.map (fun uf => uf.id)).Nodup →
      phase2Go ufs i co rs = phase2Expected rs co i := by
  intro ufs
  induction ufs with
  | nil =>
    intro rs i co hmap _
    have : rs = [] := by
      cases rs with
      | nil => rfl
      | cons r rs' => simp at hmap
    rw [this]
    rfl
  | cons uf rest ih =>
    intro rs i co hmap hnd
    cases rs with
    | nil => simp at hmap
    | cons r rs' =>
      simp only [List.map_cons, List.cons.injEq] at hmap
      obtain ⟨h1, h2⟩ := hmap
      obtain ⟨hnotmem, hnd'⟩ := List.nodup_cons.mp hnd
      simp only [phase2Go, updateFirst, if_pos h1]
      have hfrozen : ∀ uf' ∈ rest, uf'.id ≠ r.openWebUIId := by
        intro uf' h' he
        have hm : uf'.id ∈ List.map (fun x => x.id) rest := List.mem_map_of_mem _ h'
        rw [he, h1] at hm
        exact hnotmem hm
      rw [phase2Go_cons_frozen
        { r with collectionStatus := some (phase2ItemStatus (co i)).status }
        rest (i + 1) co rs' hfrozen]
      rw [ih rs' (i + 1) co h2 hnd']
      rfl

/-- Entry `k` of the predicted final results. -/
theorem phase2Expected_get (co : Nat → CollectOracle) :
    ∀ (rs : List SyncResult) (i k : Nat) (hk : k < rs.length),
      (phase2Expected rs co i).get? k =
        some { rs.get ⟨k, hk⟩ with
          collectionStatus := some (phase2ItemStatus (co (i + k))).status } := by
  intro rs
  induction rs with
  | nil => intro i k hk; simp at hk
  | cons r rest ih =>
    intro i k hk
    cases k with
    | zero => rfl
    | succ k' =>
      have hk' : k' < rest.length := by simpa using hk
      have hb : (r :: rest).get ⟨k' + 1, hk⟩ = rest.get ⟨k', hk'⟩ := rfl
      have harith : i + (k' + 1) = (i + 1) + k' := by omega
      rw [hb, harith]
      exact ih (i + 1) k' hk'

/-- Entry `k` of the phase-2 call traces. -/
theorem phase2Traces_get :
    ∀ (ufs : List UploadedFile) (i k : Nat) (hk : k < ufs.length)
      (co : Nat → CollectOracle),
      (phase2Traces ufs i co).get? k =
        some ⟨(ufs.get ⟨k, hk⟩).id,
              (phase2ItemStatus (co (i + k))).statusCalls,
              (phase2ItemStatus (co (i + k))).addCalls⟩ := by
  intro ufs
  induction ufs with
  | nil => intro i k hk; simp at hk
  | cons uf rest ih =>
    intro i k hk co
    cases k with
    | zero => rfl
    | succ k' =>
      have hk' : k' < rest.length := by simpa using hk
      have hb : (uf :: rest).get ⟨k' + 1, hk⟩ = rest.get ⟨k', hk'⟩ := rfl
      have harith : i + (k' + 1) = (i + 1) + k' := by omega
      rw [hb, harith]
      exact ih (i + 1) k' hk' co

/-! ## Lemmas about the poll loop -/

/-- If no attempt in range responds ready, the loop exits with
`fileReady = false` (exhaustion or transport break). -/
theorem pollLoop_not_ready (f : Nat → StatusAttempt) :
    ∀ (rem att : Nat),
      (∀ (i : Nat) (d : FileStatusData), att < i → i ≤ att + rem →
        f i = StatusAttempt.response d → isReadyData d = false) →
      (pollLoop f rem att).1 = false := by
  intro rem
  induction rem with
  | zero => intro att _; rfl
  | succ n ih =>
    intro att h
    cases hf : f (att + 1) with
    | transportError => simp only [pollLoop, hf]
    | response d =>
      have hnr : isReadyData d = false := h (att + 1) d (by omega) (by omega) hf
      simp only [pollLoop, hf, hnr, Bool.false_eq_true, if_false]
      exact ih (att + 1) (fun i d' hi hle hf' => h i d' (by omega) (by omega) hf')

/-- A transport error at attempt `j`, with every earlier attempt a
not-ready response, stops the loop exactly at attempt `j`, not ready. -/
theorem pollLoop_transport (f : Nat → StatusAttempt) (j : Nat)
    (hj : f j = StatusAttempt.transportError) :
    ∀ (rem att : Nat), att < j → j ≤ att + rem →
      (∀ i : Nat, att < i → i < j →
        ∃ d, f i = StatusAttempt.response d ∧ isReadyData d = false) →
      pollLoop f rem att = (false, j) := by
  intro rem
  induction rem with
  | zero =>
    intro att h1 h2 _
    omega
  | succ n ih =>
    intro att h1 h2 hprev
    by_cases he : att + 1 = j
    · subst he
      simp only [pollLoop, hj]
    · obtain ⟨d, hd, hnr⟩ := hprev (att + 1) (by omega) (by omega)
      simp only [pollLoop, hd, hnr, Bool.false_eq_true, if_false]
      exact ih (att + 1) (by omega) (by omega) (fun i hi1 hi2 => hprev i (by omega) hi2)

/-- A never-ready, non-erroring poll leaves the loop not ready. -/
theorem pollFrom_not_ready (f : Nat → StatusAttempt)
    (h : ∀ (i : Nat) (d : FileStatusData), 1 ≤ i → i ≤ maxAttempts →
      f i = StatusAttempt.response d → isReadyData d = false) :
    (pollFrom f).1 = false :=
  pollLoop_not_ready f maxAttempts 0
    (fun i d hi hle hf => h i d (by omega) (by simpa using hle) hf)

/-! ## Lemmas about one item's phase-2 outcome -/

/-- Outcome of a normally-processed item whose poll never reports ready:
`not-processed`, no add call. -/
theorem phase2ItemStatus_not_ready (orc : CollectOracle)
    (hu : orc.unexpected = false) (hp : (pollFrom orc.statusAt).1 = false) :
    phase2ItemStatus orc = ⟨"not-processed", (pollFrom orc.statusAt).2, 0⟩ := by
  unfold phase2ItemStatus
  rw [hu, hp]
  simp

/-- Outcome of a ready item whose add call fails: `collection-failed`,
exactly one add call. -/
theorem phase2ItemStatus_add_failed (orc : CollectOracle)
    (hu : orc.unexpected = false) (hr : (pollFrom orc.statusAt).1 = true)
    (ha : orc.addOk = false) :
    phase2ItemStatus orc = ⟨"collection-failed", (pollFrom orc.statusAt).2, 1⟩ := by
  unfold phase2ItemStatus
  rw [hu, hr, ha]
  simp

/-- The status vocabulary one item's phase-2 processing can write. -/
theorem phase2ItemStatus_vocab (orc : CollectOracle) :
    (phase2ItemStatus orc).status = "error" ∨
    (phase2ItemStatus orc).status = "added" ∨
    (phase2ItemStatus orc).status = "not-processed" ∨
    (phase2ItemStatus orc).status = "collection-failed" := by
  unfold phase2ItemStatus
  by_cases h1 : orc.unexpected
  · rw [if_pos h1]; exact Or.inl rfl
  · rw [if_neg h1]
    by_cases h2 : (pollFrom orc.statusAt).1
    · rw [if_pos h2]
      by_cases h3 : orc.addOk
      · rw [if_pos h3]; exact Or.inr (Or.inl rfl)
      · rw [if_neg h3]; exact Or.inr (Or.inr (Or.inr rfl))
    · rw [if_neg h2]; exact Or.inr (Or.inr (Or.inl rfl))

/-! ## Run-level glue lemmas -/

/-- With the environment complete and the listing succeeding, the run
returns the built report. -/
theorem runSync_report (env : Config) (o : RunOracle) (blobs : List BlobFile)
    (hm : missingEnvVars env = []) (hl : o.listing = Except.ok blobs) :
    runSync env o = SyncResponse.report (buildSummary env o blobs) := by
  unfold runSync
  rw [hm, hl]
  rfl

/-- A run that returns a report did so from a complete environment and a
successful listing, and the report is the built summary. -/
theorem runSync_report_inv (env : Config) (o : RunOracle) (s : Summary)
    (h : runSync env o = SyncResponse.report s) :
    missingEnvVars env = [] ∧
    ∃ blobs, o.listing = Except.ok blobs ∧ s = buildSummary env o blobs := by
  unfold runSync at h
  by_cases hm : 0 < (missingEnvVars env).length
  · rw [if_pos hm] at h
    exact absurd h (by simp)
  · have hm' : missingEnvVars env = [] := by
      cases hme : missingEnvVars env with
      | nil => rfl
      | cons a l => rw [hme] at hm; simp at hm
    rw [if_neg hm] at h
    cases hl : o.listing with
    | error e => rw [hl] at h; exact absurd h (by simp)
    | ok blobs =>
      rw [hl] at h
      simp only [SyncResponse.report.injEq] at h
      exact ⟨hm', blobs, rfl, h.symm⟩

/-- Projections ignoring `collectionStatus` see the phase-1 results in the
final results, whichever phase-2 branch ran. -/
theorem finalResultsOf_map {α : Type} (g : SyncResult → α)
    (hg : ∀ (r : SyncResult) (c : Option String),
      g { r with collectionStatus := c } = g r)
    (env : Config) (o : RunOracle) (blobs : List BlobFile) :
    (finalResultsOf env o blobs).map g
      = ((phase1Go blobs 0 o.upload).uploadResults).map g := by
  unfold finalResultsOf
  by_cases h : phase2Enabled env (phase1Go blobs 0 o.upload) = true
  · rw [if_pos h]
    exact phase2Go_map g hg _ 0 o.collect _
  · rw [if_neg h]
    rw [List.map_map]
    have hcomp : (g ∘ fun r => { r with collectionStatus := none }) = g := by
      funext r
      exact hg r none
    rw [hcomp]

/-- Every final result entry keeps the phase-1 status `"uploaded"`. -/
theorem finalResultsOf_status (env : Config) (o : RunOracle) (blobs : List BlobFile) :
    ∀ r ∈ finalResultsOf env o blobs, r.status = "uploaded" := by
  intro r hr
  have hmap := finalResultsOf_map (fun r => r.status) (fun r c => rfl) env o blobs
  have hmem : r.status ∈ (finalResultsOf env o blobs).map (fun r => r.status) :=
    List.mem_map_of_mem _ hr
  rw [hmap] at hmem
  obtain ⟨r0, hr0, he⟩ := List.mem_map.mp hmem
  rw [← he]
  exact (phase1Go_status blobs 0 o.upload r0 hr0).1

/-- Phase 2 neither adds nor removes report entries. -/
theorem finalResultsOf_length (env : Config) (o : RunOracle) (blobs : List BlobFile) :
    (finalResultsOf env o blobs).length
      = (phase1Go blobs 0 o.upload).uploadResults.length := by
  have hmap := finalResultsOf_map (fun r => r.file) (fun r c => rfl) env o blobs
  have := congrArg List.length hmap
  simpa using this

/-- Every final `collectionStatus` is the phase-1 `null` or some item's
phase-2 outcome. -/
theorem finalResultsOf_cs (env : Config) (o : RunOracle) (blobs : List BlobFile) :
    ∀ r ∈ finalResultsOf env o blobs,
      r.collectionStatus = none ∨
      ∃ k : Nat, r.collectionStatus = some (phase2ItemStatus (o.collect k)).status := by
  intro r hr
  unfold finalResultsOf at hr
  by_cases h : phase2Enabled env (phase1Go blobs 0 o.upload) = true
  · rw [if_pos h] at hr
    cases phase2Go_mem _ 0 o.collect _ r hr with
    | inl hin => exact Or.inl (phase1Go_status blobs 0 o.upload r hin).2
    | inr hex =>
      obtain ⟨r0, hr0, k, he⟩ := hex
      refine Or.inr ⟨k, ?_⟩
      rw [he]
  · rw [if_neg h] at hr
    obtain ⟨r0, hr0, he⟩ := List.mem_map.mp hr
    rw [← he]
    exact Or.inl rfl

/-- The results and the uploaded files have the same length. -/
theorem phase1Go_len_eq (bs : List BlobFile) (i : Nat) (u : Nat → UploadOracle) :
    (phase1Go bs i u).uploadResults.length
      = (phase1Go bs i u).uploadedFiles.length := by
  have := congrArg List.length (phase1Go_ids bs i u)
  simpa using this

/-- With a collection target and distinct remote ids, the final results
are entry-wise predicted by `phase2Expected`. -/
theorem finalResultsOf_expected (env : Config) (o : RunOracle) (blobs : List BlobFile)
    (hen : phase2Enabled env (phase1Go blobs 0 o.upload) = true)
    (hnd : ((phase1Go blobs 0 o.upload).uploadedFiles.map (fun f => f.id)).Nodup) :
    finalResultsOf env o blobs
      = phase2Expected (phase1Go blobs 0 o.upload).uploadResults o.collect 0 := by
  unfold finalResultsOf
  rw [if_pos hen]
  exact phase2Go_expected _ _ 0 o.collect (phase1Go_ids blobs 0 o.upload) hnd

/-- With a collection target, the run's call traces are the phase-2
traces. -/
theorem runCalls_traces (env : Config) (o : RunOracle) (blobs : List BlobFile)
    (hm : missingEnvVars env = []) (hl : o.listing = Except.ok blobs)
    (hen : phase2Enabled env (phase1Go blobs 0 o.upload) = true) :
    runCalls env o
      = phase2Traces (phase1Go blobs 0 o.upload).uploadedFiles 0 o.collect := by
  unfold runCalls
  rw [hm, hl]
  simp only [List.length_nil, Nat.lt_irrefl, if_false]
  unfold runTracesOf
  rw [if_pos hen]

/-- An extension outside the classifier table falls to the default
branch. -/
theorem classifyTable_default (e : String) (he : e ∉ knownExtensions) :
    classifyTable e = ("application/octet-stream", Transfer.binary) := by
  unfold classifyTable
  split <;> simp_all [knownExtensions]

/-! ## Claims -/

/-- C2: for every run that completes with a RunReport, the summary
counters satisfy `successful + failed == totalFiles` and
`0 ≤ addedToCollection ≤ successful` (where `totalFiles` is the number of
listed source items and the left inequality is inherent in `Nat`). -/
theorem C2_summary_counters (env : Config) (o : RunOracle) (blobs : List BlobFile)
    (hm : missingEnvVars env = []) (hl : o.listing = Except.ok blobs) :
    ∃ s : Summary, runSync env o = SyncResponse.report s ∧
      s.totalFiles = blobs.length ∧
      s.successful + s.failed = s.totalFiles ∧
      s.addedToCollection ≤ s.successful := by
  have hall : (finalResultsOf env o blobs).filter
      (fun r => decide (r.status = "uploaded")) = finalResultsOf env o blobs := by
    apply List.filter_eq_self.mpr
    intro a ha
    simpa using finalResultsOf_status env o blobs a ha
  refine ⟨buildSummary env o blobs, runSync_report env o blobs hm hl, rfl, ?_, ?_⟩
  · show ((finalResultsOf env o blobs).filter
        (fun r => decide (r.status = "uploaded"))).length
      + (phase1Go blobs 0 o.upload).uploadErrors.length = blobs.length
    rw [hall, finalResultsOf_length]
    exact phase1Go_count blobs 0 o.upload
  · show ((finalResultsOf env o blobs).filter
        (fun r => decide (r.collectionStatus = some "added"))).length
      ≤ ((finalResultsOf env o blobs).filter
        (fun r => decide (r.status = "uploaded"))).length
    rw [hall]
    exact List.length_filter_le _ _

/-- C2 witness: a concrete two-item run (one failure) satisfying the
counter invariants. -/
theorem C2_witness :
    ∃ s : Summary, runSync envNoColl oraMixed = SyncResponse.report s ∧
      s.totalFiles = [sampleBlob, blobB].length ∧
      s.successful + s.failed = s.totalFiles ∧
      s.addedToCollection ≤ s.successful :=
  C2_summary_counters envNoColl oraMixed [sampleBlob, blobB] (by decide) rfl

/-- C7: if no collection id is configured, every report entry carries
`collectionStatus = null` and no status-poll or association calls are
issued (the phase-2 trace is empty). -/
theorem C7_no_collection_id (env : Config) (o : RunOracle)
    (hcol : envTruthy env.collectionId = false) :
    (∀ s : Summary, runSync env o = SyncResponse.report s →
      ∀ r ∈ s.results, r.collectionStatus = none) ∧
    runCalls env o = [] := by
  have hdis : ∀ blobs : List BlobFile,
      phase2Enabled env (phase1Go blobs 0 o.upload) = false := by
    intro blobs
    unfold phase2Enabled
    rw [hcol]
    rfl
  constructor
  · intro s hs r hr
    obtain ⟨-, blobs, -, he⟩ := runSync_report_inv env o s hs
    rw [he] at hr
    have hfin : finalResultsOf env o blobs
        = (phase1Go blobs 0 o.upload).uploadResults.map
            (fun r => { r with collectionStatus := none }) := by
      unfold finalResultsOf
      rw [hdis blobs]
      simp
    have hr' : r ∈ (phase1Go blobs 0 o.upload).uploadResults.map
        (fun r => { r with collectionStatus := none }) := by
      rw [← hfin]
      exact hr
    obtain ⟨r0, hr0, hre⟩ := List.mem_map.mp hr'
    rw [← hre]
  · unfold runCalls
    by_cases hm : 0 < (missingEnvVars env).length
    · rw [if_pos hm]
    · rw [if_neg hm]
      cases hl : o.listing with
      | error e => rfl
      | ok blobs =>
        show runTracesOf env o blobs = []
        unfold runTracesOf
        rw [hdis blobs]
        rfl

/-- C7 witness: the concrete no-collection-id run. -/
theorem C7_witness :
    (∀ s : Summary, runSync envNoColl oraPending = SyncResponse.report s →
      ∀ r ∈ s.results, r.collectionStatus = none) ∧
    runCalls envNoColl oraPending = [] :=
  C7_no_collection_id envNoColl oraPending (by decide)

/-- C10: every completed report's entries have `status = "uploaded"`
(entries exist only for successful uploads) and a `collectionStatus` among
null, added, not-processed, collection-failed and error; and the value
`"error"`, written by the per-item outer catch of the collection phase, is
reachable in a run. -/
theorem C10_report_vocabulary :
    (∀ (env : Config) (o : RunOracle) (s : Summary),
      runSync env o = SyncResponse.report s →
      ∀ r ∈ s.results, r.status = "uploaded" ∧
        (r.collectionStatus = none ∨ r.collectionStatus = some "added" ∨
         r.collectionStatus = some "not-processed" ∨
         r.collectionStatus = some "collection-failed" ∨
         r.collectionStatus = some "error")) ∧
    (∃ s : Summary, runSync envFull oraErrRun = SyncResponse.report s ∧
      ∃ r ∈ s.results, r.collectionStatus = some "error") := by
  constructor
  · intro env o s hs r hr
    obtain ⟨-, blobs, -, he⟩ := runSync_report_inv env o s hs
    rw [he] at hr
    refine ⟨finalResultsOf_status env o blobs r hr, ?_⟩
    cases finalResultsOf_cs env o blobs r hr with
    | inl h0 => exact Or.inl h0
    | inr h0 =>
      obtain ⟨k, hk⟩ := h0
      rcases phase2ItemStatus_vocab (o.collect k) with h | h | h | h
      · rw [h] at hk
        exact Or.inr (Or.inr (Or.inr (Or.inr hk)))
      · rw [h] at hk
        exact Or.inr (Or.inl hk)
      · rw [h] at hk
        exact Or.inr (Or.inr (Or.inl hk))
      · rw [h] at hk
        exact Or.inr (Or.inr (Or.inr (Or.inl hk)))
  · refine ⟨⟨1, 1, 0, 0, 7, [⟨"a.md", "uploaded", "f1", some "error", 3, 5⟩], []⟩,
      by decide, ⟨"a.md", "uploaded", "f1", some "error", 3, 5⟩, ?_, rfl⟩
    exact List.mem_singleton.mpr rfl

/-- C10 witness: the invariant instantiated on a concrete run. -/
theorem C10_witness :
    (⟨"a.md", "uploaded", "f1", some "not-processed", 3, 5⟩ : SyncResult).status
        = "uploaded" ∧
      ((⟨"a.md", "uploaded", "f1", some "not-processed", 3, 5⟩ : SyncResult).collectionStatus = none ∨
       (⟨"a.md", "uploaded", "f1", some "not-processed", 3, 5⟩ : SyncResult).collectionStatus = some "added" ∨
       (⟨"a.md", "uploaded", "f1", some "not-processed", 3, 5⟩ : SyncResult).collectionStatus = some "not-processed" ∨
       (⟨"a.md", "uploaded", "f1", some "not-processed", 3, 5⟩ : SyncResult).collectionStatus = some "collection-failed" ∨
       (⟨"a.md", "uploaded", "f1", some "not-processed", 3, 5⟩ : SyncResult).collectionStatus = some "error") :=
  C10_report_vocabulary.1 envFull oraPending
    ⟨1, 1, 0, 0, 7, [⟨"a.md", "uploaded", "f1", some "not-processed", 3, 5⟩], []⟩
    (by decide)
    ⟨"a.md", "uploaded", "f1", some "not-processed", 3, 5⟩
    (List.mem_singleton.mpr rfl)

/-- C9 (amended): the run yields exactly one of three shapes — the report
(environment complete, listing succeeded), the config-error response
(some required variable missing; it carries only an error message and no
timestamp), or the catch-all fatal response with details and timestamp
(environment complete, listing failed).  A fatal shape is never mixed
with a partial report. -/
theorem C9_response_shapes (env : Config) (o : RunOracle) :
    (runSync env o = SyncResponse.configError (missingEnvVars env) ∧
      missingEnvVars env ≠ [] ∧
      responseHasTimestamp (runSync env o) = false) ∨
    ((∃ d, o.listing = Except.error d ∧
        runSync env o = SyncResponse.fatal d o.now ∧
        responseHasTimestamp (runSync env o) = true) ∧
      missingEnvVars env = []) ∨
    ((∃ blobs, o.listing = Except.ok blobs ∧
        runSync env o = SyncResponse.report (buildSummary env o blobs)) ∧
      missingEnvVars env = []) := by
  by_cases hm : 0 < (missingEnvVars env).length
  · left
    have h1 : runSync env o = SyncResponse.configError (missingEnvVars env) := by
      unfold runSync
      rw [if_pos hm]
    refine ⟨h1, ?_, by rw [h1]; rfl⟩
    intro hnil
    rw [hnil] at hm
    simp at hm
  · have hm' : missingEnvVars env = [] := by
      cases hme : missingEnvVars env with
      | nil => rfl
      | cons a l => rw [hme] at hm; simp at hm
    cases hl : o.listing with
    | error d =>
      right; left
      have h1 : runSync env o = SyncResponse.fatal d o.now := by
        unfold runSync
        rw [if_neg hm, hl]
      exact ⟨⟨d, rfl, h1, by rw [h1]; rfl⟩, hm'⟩
    | ok blobs =>
      right; right
      refine ⟨⟨blobs, rfl, ?_⟩, hm'⟩
      unfold runSync
      rw [if_neg hm, hl]

/-- C9 counterexample: with the blob token missing, the fatal
(config-error) response carries no timestamp, against the claim that a
fatal response always carries an error message and a timestamp. -/
theorem C9_counterexample :
    runSync envMissing oraEmpty
        = SyncResponse.configError ["BLOB_READ_WRITE_TOKEN"] ∧
    responseHasTimestamp (runSync envMissing oraEmpty) = false := by
  exact ⟨by decide, by decide⟩

/-- C8 (amended): classification is a pure, total, deterministic function
of `path.split(".").pop().toLowerCase()` — for a path containing a dot
this is its extension, while a dotless path is looked up whole — with the
fixed table of text and binary types and the octet-stream/binary default
for anything outside the table.  (The original claim's "missing extension
defaults to octet-stream" fails for dotless paths that spell a known
extension, see the counterexample.) -/
theorem C8_classification (p q : String) (hpq : fileExtension p = fileExtension q) :
    classify p = classifyTable (fileExtension p) ∧
    classify p = classify q ∧
    (fileExtension p ∉ knownExtensions →
      classify p = ("application/octet-stream", Transfer.binary)) ∧
    classify "a.md" = ("text/markdown", Transfer.text) ∧
    classify "a.markdown" = ("text/markdown", Transfer.text) ∧
    classify "a.txt" = ("text/plain", Transfer.text) ∧
    classify "a.json" = ("application/json", Transfer.text) ∧
    classify "a.html" = ("text/html", Transfer.text) ∧
    classify "a.pdf" = ("application/pdf", Transfer.binary) ∧
    classify "a.doc"
      = ("application/vnd.openxmlformats-officedocument.wordprocessingml.document",
         Transfer.binary) ∧
    classify "a.docx"
      = ("application/vnd.openxmlformats-officedocument.wordprocessingml.document",
         Transfer.binary) ∧
    classify "a.xls"
      = ("application/vnd.openxmlformats-officedocument.spreadsheetml.sheet",
         Transfer.binary) ∧
    classify "a.xlsx"
      = ("application/vnd.openxmlformats-officedocument.spreadsheetml.sheet",
         Transfer.binary) ∧
    classify "a.ppt"
      = ("application/vnd.openxmlformats-officedocument.presentationml.presentation",
         Transfer.binary) ∧
    classify "a.pptx"
      = ("application/vnd.openxmlformats-officedocument.presentationml.presentation",
         Transfer.binary) ∧
    classify "a.jpg" = ("image/jpeg", Transfer.binary) ∧
    classify "a.jpeg" = ("image/jpeg", Transfer.binary) ∧
    classify "a.png" = ("image/png", Transfer.binary) ∧
    classify "a.gif" = ("image/gif", Transfer.binary) ∧
    classify "a.weird" = ("application/octet-stream", Transfer.binary) ∧
    classify "UPPER.MD" = ("text/markdown", Transfer.text) := by
  have hfac : ∀ r : String, classify r = classifyTable (fileExtension r) := by
    intro r
    rfl
  refine ⟨hfac p, ?_, ?_, ?_⟩
  · rw [hfac p, hfac q, hpq]
  · intro hne
    rw [hfac p]
    exact classifyTable_default _ hne
  · decide

/-- C8 witness: two paths with the same extension classify equally, and
the universal clauses instantiate. -/
theorem C8_witness :
    fileExtension "a.md" = fileExtension "b.md" ∧
    classify "a.md" = classify "b.md" :=
  ⟨by decide, (C8_classification "a.md" "b.md" (by decide)).2.1⟩

/-- C8 counterexample: the path "md" contains no dot, hence has no
extension, yet it is classified as markdown text — not as the claimed
octet-stream/binary default for a missing extension. -/
theorem C8_counterexample :
    ("md".data.contains '.') = false ∧
    classify "md" = ("text/markdown", Transfer.text) ∧
    classify "md" ≠ ("application/octet-stream", Transfer.binary) := by
  exact ⟨by decide, by decide, by decide⟩

/-- C1 (amended): a completed report's `results[]` has exactly one entry
per item whose upload succeeded, in the original listing order (its file
names are exactly the successful pathnames, a subsequence of the listing),
while each failed item appears exactly once in `errors[]` instead; the
two partition the listing: `results.length + errors.length = totalFiles`. -/
theorem C1_results_partition (env : Config) (o : RunOracle) (blobs : List BlobFile)
    (hm : missingEnvVars env = []) (hl : o.listing = Except.ok blobs) :
    ∃ s : Summary, runSync env o = SyncResponse.report s ∧
      s.results.map (fun r => r.file) = successPaths blobs 0 o.upload ∧
      s.errors.map Prod.fst = failPaths blobs 0 o.upload ∧
      s.results.length + s.errors.length = s.totalFiles ∧
      (s.results.map (fun r => r.file)).Sublist (blobs.map (fun b => b.pathname)) := by
  have hfiles : (finalResultsOf env o blobs).map (fun r => r.file)
      = successPaths blobs 0 o.upload := by
    rw [finalResultsOf_map (fun r => r.file) (fun r c => rfl)]
    exact phase1Go_results_files blobs 0 o.upload
  refine ⟨buildSummary env o blobs, runSync_report env o blobs hm hl,
    hfiles, phase1Go_errors_files blobs 0 o.upload, ?_, ?_⟩
  · show (finalResultsOf env o blobs).length
        + (phase1Go blobs 0 o.upload).uploadErrors.length = blobs.length
    rw [finalResultsOf_length]
    exact phase1Go_count blobs 0 o.upload
  · show ((finalResultsOf env o blobs).map (fun r => r.file)).Sublist
        (blobs.map (fun b => b.pathname))
    rw [hfiles]
    exact successPaths_sublist blobs 0 o.upload

/-- C1 witness: the two-item run with one failure. -/
theorem C1_witness :
    ∃ s : Summary, runSync envNoColl oraMixed = SyncResponse.report s ∧
      s.results.map (fun r => r.file) = successPaths [sampleBlob, blobB] 0 uMixed ∧
      s.errors.map Prod.fst = failPaths [sampleBlob, blobB] 0 uMixed ∧
      s.results.length + s.errors.length = s.totalFiles ∧
      (s.results.map (fun r => r.file)).Sublist
        ([sampleBlob, blobB].map (fun b => b.pathname)) :=
  C1_results_partition envNoColl oraMixed [sampleBlob, blobB] (by decide) rfl

/-- C1 counterexample: a run with one listed item whose fetch-and-upload
fails completes with `results = []` — the failed item has no `results[]`
entry (it is recorded in `errors[]` only), so `results[]` does not contain
one entry per item that reached the upload stage. -/
theorem C1_counterexample :
    runSync envNoColl oraFail
      = SyncResponse.report ⟨1, 0, 1, 0, 7, [], [("a.md", "network down")]⟩ ∧
    ¬ resultsCoverAllItems [sampleBlob]
        ⟨1, 0, 1, 0, 7, [], [("a.md", "network down")]⟩ := by
  constructor
  · decide
  · intro h
    obtain ⟨r, ⟨hr, -⟩, -⟩ := h sampleBlob (List.mem_singleton.mpr rfl)
    exact List.not_mem_nil r hr

/-- C3: in the upload stage, a fetch failure (non-ok transport status) or
an upload failure (rejected call or response without an id) for item `a`
is recorded as that item's error entry with its message, and item `b`'s
success still lands in the results — the outcome of each item depends only
on its own oracle — while results and errors together cover every listed
item exactly once. -/
theorem C3_failure_isolation (bs : List BlobFile) (u : Nat → UploadOracle)
    (a b : Nat) (ha : a < bs.length) (hb : b < bs.length)
    (e : String × String)
    (hfa : uploadOne (bs.get ⟨a, ha⟩) (u a) = ItemUpload.failure e)
    (uf : UploadedFile) (res : SyncResult)
    (hsb : uploadOne (bs.get ⟨b, hb⟩) (u b) = ItemUpload.success uf res) :
    e ∈ (phase1Go bs 0 u).uploadErrors ∧
    res ∈ (phase1Go bs 0 u).uploadResults ∧
    (phase1Go bs 0 u).uploadResults.length + (phase1Go bs 0 u).uploadErrors.length
      = bs.length ∧
    (∀ (bl : BlobFile) (orc : UploadOracle), orc.fetchOk = false →
      uploadOne bl orc = ItemUpload.failure
        (bl.pathname, "Failed to fetch blob content: " ++ orc.fetchStatusText)) ∧
    (∀ (bl : BlobFile) (orc : UploadOracle), orc.fetchOk = true →
      orc.uploadResp = UploadResp.ok none →
      uploadOne bl orc = ItemUpload.failure
        (bl.pathname, "Failed to get file ID from upload response")) := by
  have hfa' : uploadOne (bs.get ⟨a, ha⟩) (u (0 + a)) = ItemUpload.failure e := by
    rw [Nat.zero_add]
    exact hfa
  have hsb' : uploadOne (bs.get ⟨b, hb⟩) (u (0 + b)) = ItemUpload.success uf res := by
    rw [Nat.zero_add]
    exact hsb
  refine ⟨phase1Go_mem_failure bs 0 a ha u e hfa',
    (phase1Go_mem_success bs 0 b hb u uf res hsb').1,
    phase1Go_count bs 0 u, ?_, ?_⟩
  · intro bl orc hf
    unfold uploadOne
    rw [hf]
    simp
  · intro bl orc hf hresp
    unfold uploadOne
    rw [hf, hresp]
    simp

/-- C3 witness: item 0 fails, item 1 succeeds, both recorded. -/
theorem C3_witness :
    ("a.md", "network down") ∈ (phase1Go [sampleBlob, blobB] 0 uMixed).uploadErrors ∧
    (⟨"b.txt", "uploaded", "f2", none, 4, 6⟩ : SyncResult)
      ∈ (phase1Go [sampleBlob, blobB] 0 uMixed).uploadResults ∧
    (phase1Go [sampleBlob, blobB] 0 uMixed).uploadResults.length
      + (phase1Go [sampleBlob, blobB] 0 uMixed).uploadErrors.length
      = [sampleBlob, blobB].length ∧
    (∀ (bl : BlobFile) (orc : UploadOracle), orc.fetchOk = false →
      uploadOne bl orc = ItemUpload.failure
        (bl.pathname, "Failed to fetch blob content: " ++ orc.fetchStatusText)) ∧
    (∀ (bl : BlobFile) (orc : UploadOracle), orc.fetchOk = true →
      orc.uploadResp = UploadResp.ok none →
      uploadOne bl orc = ItemUpload.failure
        (bl.pathname, "Failed to get file ID from upload response")) :=
  C3_failure_isolation [sampleBlob, blobB] uMixed 0 1 (by decide) (by decide)
    ("a.md", "network down") (by decide)
    ⟨"f2", "b.txt", 4, 6⟩ ⟨"b.txt", "uploaded", "f2", none, 4, 6⟩ (by decide)

/-- C4: an uploaded item whose readiness check never reports a
terminal-success state with non-empty content within the 6 allowed
attempts ends with `collectionStatus = "not-processed"` in the final
report, and no add-to-collection call is issued for it (its trace has
zero add calls).  Hypotheses: complete environment, successful listing,
collection configured, pairwise-distinct remote ids (the §3 invariant),
and no out-of-taxonomy exception for the item. -/
theorem C4_not_processed (env : Config) (o : RunOracle) (blobs : List BlobFile)
    (k : Nat)
    (hm : missingEnvVars env = []) (hl : o.listing = Except.ok blobs)
    (hcol : envTruthy env.collectionId = true)
    (hnd : ((phase1Go blobs 0 o.upload).uploadedFiles.map (fun f => f.id)).Nodup)
    (hk : k < (phase1Go blobs 0 o.upload).uploadedFiles.length)
    (hu : (o.collect k).unexpected = false)
    (hnr : ∀ (i : Nat) (d : FileStatusData), 1 ≤ i → i ≤ maxAttempts →
      (o.collect k).statusAt i = StatusAttempt.response d → isReadyData d = false) :
    ∃ s : Summary, runSync env o = SyncResponse.report s ∧
      (∃ r : SyncResult, s.results.get? k = some r ∧
        r.collectionStatus = some "not-processed") ∧
      (∃ t : ItemTrace, (runCalls env o).get? k = some t ∧ t.addCalls = 0) := by
  have hen : phase2Enabled env (phase1Go blobs 0 o.upload) = true := by
    unfold phase2Enabled
    rw [hcol]
    simp only [Bool.true_and, decide_eq_true_eq]
    omega
  have hk' : k < (phase1Go blobs 0 o.upload).uploadResults.length := by
    rw [phase1Go_len_eq]
    exact hk
  have hfin := finalResultsOf_expected env o blobs hen hnd
  have hpoll : (pollFrom (o.collect k).statusAt).1 = false :=
    pollFrom_not_ready _ hnr
  have hstat := phase2ItemStatus_not_ready (o.collect k) hu hpoll
  refine ⟨buildSummary env o blobs, runSync_report env o blobs hm hl, ?_, ?_⟩
  · refine ⟨{ (phase1Go blobs 0 o.upload).uploadResults.get ⟨k, hk'⟩ with
      collectionStatus := some (phase2ItemStatus (o.collect (0 + k))).status },
      ?_, ?_⟩
    · show (finalResultsOf env o blobs).get? k = _
      rw [hfin]
      exact phase2Expected_get o.collect _ 0 k hk'
    · show some (phase2ItemStatus (o.collect (0 + k))).status = some "not-processed"
      rw [Nat.zero_add, hstat]
  · rw [runCalls_traces env o blobs hm hl hen]
    refine ⟨⟨((phase1Go blobs 0 o.upload).uploadedFiles.get ⟨k, hk⟩).id,
      (phase2ItemStatus (o.collect (0 + k))).statusCalls,
      (phase2ItemStatus (o.collect (0 + k))).addCalls⟩, ?_, ?_⟩
    · exact phase2Traces_get _ 0 k hk o.collect
    · show (phase2ItemStatus (o.collect (0 + k))).addCalls = 0
      rw [Nat.zero_add, hstat]

/-- C4 witness: the never-ready single-item run ends not-processed with no
add call. -/
theorem C4_witness :
    ∃ s : Summary, runSync envFull oraPending = SyncResponse.report s ∧
      (∃ r : SyncResult, s.results.get? 0 = some r ∧
        r.collectionStatus = some "not-processed") ∧
      (∃ t : ItemTrace, (runCalls envFull oraPending).get? 0 = some t ∧
        t.addCalls = 0) :=
  C4_not_processed envFull oraPending [sampleBlob] 0 (by decide) rfl (by decide)
    (by decide) (by decide) (by decide)
    (by
      intro i d h1 h2 hd
      injection hd with h
      rw [← h]
      decide)

/-- C5: a transport-level failure of the status poll at attempt `j` stops
polling for that item immediately (its trace shows exactly `j` status
calls and no add call), the item is treated as not ready
(`collectionStatus = "not-processed"`), and the run still completes with
a report in which every item's outcome is determined by that item's own
oracle alone. -/
theorem C5_transport_abandon (env : Config) (o : RunOracle) (blobs : List BlobFile)
    (k j : Nat)
    (hm : missingEnvVars env = []) (hl : o.listing = Except.ok blobs)
    (hcol : envTruthy env.collectionId = true)
    (hnd : ((phase1Go blobs 0 o.upload).uploadedFiles.map (fun f => f.id)).Nodup)
    (hk : k < (phase1Go blobs 0 o.upload).uploadedFiles.length)
    (hu : (o.collect k).unexpected = false)
    (hj1 : 1 ≤ j) (hj2 : j ≤ maxAttempts)
    (ht : (o.collect k).statusAt j = StatusAttempt.transportError)
    (hprev : ∀ i : Nat, 1 ≤ i → i < j →
      ∃ d, (o.collect k).statusAt i = StatusAttempt.response d ∧
        isReadyData d = false) :
    ∃ s : Summary, runSync env o = SyncResponse.report s ∧
      (∃ r : SyncResult, s.results.get? k = some r ∧
        r.collectionStatus = some "not-processed") ∧
      (∃ t : ItemTrace, (runCalls env o).get? k = some t ∧
        t.statusCalls = j ∧ t.addCalls = 0) ∧
      (∀ m : Nat, m < s.results.length →
        ∃ r : SyncResult, s.results.get? m = some r ∧
          r.collectionStatus = some (phase2ItemStatus (o.collect m)).status) := by
  have hen : phase2Enabled env (phase1Go blobs 0 o.upload) = true := by
    unfold phase2Enabled
    rw [hcol]
    simp only [Bool.true_and, decide_eq_true_eq]
    omega
  have hk' : k < (phase1Go blobs 0 o.upload).uploadResults.length := by
    rw [phase1Go_len_eq]
    exact hk
  have hfin := finalResultsOf_expected env o blobs hen hnd
  have hpollEq : pollFrom (o.collect k).statusAt = (false, j) :=
    pollLoop_transport _ j ht maxAttempts 0 (by omega) (by omega)
      (fun i hi1 hi2 => hprev i (by omega) hi2)
  have hpoll : (pollFrom (o.collect k).statusAt).1 = false := by
    rw [hpollEq]
  have hstat := phase2ItemStatus_not_ready (o.collect k) hu hpoll
  refine ⟨buildSummary env o blobs, runSync_report env o blobs hm hl, ?_, ?_, ?_⟩
  · refine ⟨{ (phase1Go blobs 0 o.upload).uploadResults.get ⟨k, hk'⟩ with
      collectionStatus := some (phase2ItemStatus (o.collect (0 + k))).status },
      ?_, ?_⟩
    · show (finalResultsOf env o blobs).get? k = _
      rw [hfin]
      exact phase2Expected_get o.collect _ 0 k hk'
    · show some (phase2ItemStatus (o.collect (0 + k))).status = some "not-processed"
      rw [Nat.zero_add, hstat]
  · rw [runCalls_traces env o blobs hm hl hen]
    refine ⟨⟨((phase1Go blobs 0 o.upload).uploadedFiles.get ⟨k, hk⟩).id,
      (phase2ItemStatus (o.collect (0 + k))).statusCalls,
      (phase2ItemStatus (o.collect (0 + k))).addCalls⟩,
      phase2Traces_get _ 0 k hk o.collect, ?_, ?_⟩
    · show (phase2ItemStatus (o.collect (0 + k))).statusCalls = j
      rw [Nat.zero_add, hstat]
      show (pollFrom (o.collect k).statusAt).2 = j
      rw [hpollEq]
    · show (phase2ItemStatus (o.collect (0 + k))).addCalls = 0
      rw [Nat.zero_add, hstat]
  · intro m hmlt
    have hm' : m < (phase1Go blobs 0 o.upload).uploadResults.length := by
      have hlen : (buildSummary env o blobs).results.length
          = (phase1Go blobs 0 o.upload).uploadResults.length :=
        finalResultsOf_length env o blobs
      omega
    refine ⟨{ (phase1Go blobs 0 o.upload).uploadResults.get ⟨m, hm'⟩ with
      collectionStatus := some (phase2ItemStatus (o.collect (0 + m))).status },
      ?_, ?_⟩
    · show (finalResultsOf env o blobs).get? m = _
      rw [hfin]
      exact phase2Expected_get o.collect _ 0 m hm'
    · show some (phase2ItemStatus (o.collect (0 + m))).status
          = some (phase2ItemStatus (o.collect m)).status
      rw [Nat.zero_add]

/-- C5 witness: transport failure at attempt 2 after one pending attempt:
exactly two status calls, no add call, not-processed, report completed. -/
theorem C5_witness :
    ∃ s : Summary, runSync envFull oraTransport = SyncResponse.report s ∧
      (∃ r : SyncResult, s.results.get? 0 = some r ∧
        r.collectionStatus = some "not-processed") ∧
      (∃ t : ItemTrace, (runCalls envFull oraTransport).get? 0 = some t ∧
        t.statusCalls = 2 ∧ t.addCalls = 0) ∧
      (∀ m : Nat, m < s.results.length →
        ∃ r : SyncResult, s.results.get? m = some r ∧
          r.collectionStatus
            = some (phase2ItemStatus (oraTransport.collect m)).status) :=
  C5_transport_abandon envFull oraTransport [sampleBlob] 0 2 (by decide) rfl
    (by decide) (by decide) (by decide) (by decide) (by decide) (by decide)
    (by decide)
    (by
      intro i h1 h2
      have hi : i = 1 := by omega
      subst hi
      exact ⟨pendingData, by decide, by decide⟩)

/-- C6: for a ready item whose association call fails, the report entry
keeps every upload-phase field unchanged (`file`, `status = "uploaded"`,
`openWebUIId`, `size`, `uploadedAt`) and only `collectionStatus` becomes
`"collection-failed"`; the association call is issued exactly once (no
retry) and no re-upload occurs. -/
theorem C6_preserved_on_add_failure (env : Config) (o : RunOracle)
    (blobs : List BlobFile) (k : Nat)
    (hm : missingEnvVars env = []) (hl : o.listing = Except.ok blobs)
    (hcol : envTruthy env.collectionId = true)
    (hnd : ((phase1Go blobs 0 o.upload).uploadedFiles.map (fun f => f.id)).Nodup)
    (hk : k < (phase1Go blobs 0 o.upload).uploadedFiles.length)
    (hu : (o.collect k).unexpected = false)
    (hready : (pollFrom (o.collect k).statusAt).1 = true)
    (haddfail : (o.collect k).addOk = false) :
    ∃ s : Summary, runSync env o = SyncResponse.report s ∧
      ∃ r0 : SyncResult,
        (phase1Go blobs 0 o.upload).uploadResults.get? k = some r0 ∧
        ∃ r : SyncResult, s.results.get? k = some r ∧
          r.file = r0.file ∧ r.status = "uploaded" ∧
          r.openWebUIId = r0.openWebUIId ∧ r.size = r0.size ∧
          r.uploadedAt = r0.uploadedAt ∧
          r.collectionStatus = some "collection-failed" ∧
          ∃ t : ItemTrace, (runCalls env o).get? k = some t ∧ t.addCalls = 1 := by
  have hen : phase2Enabled env (phase1Go blobs 0 o.upload) = true := by
    unfold phase2Enabled
    rw [hcol]
    simp only [Bool.true_and, decide_eq_true_eq]
    omega
  have hk' : k < (phase1Go blobs 0 o.upload).uploadResults.length := by
    rw [phase1Go_len_eq]
    exact hk
  have hfin := finalResultsOf_expected env o blobs hen hnd
  have hstat := phase2ItemStatus_add_failed (o.collect k) hu hready haddfail
  refine ⟨buildSummary env o blobs, runSync_report env o blobs hm hl,
    (phase1Go blobs 0 o.upload).uploadResults.get ⟨k, hk'⟩,
    List.get?_eq_get hk', ?_⟩
  refine ⟨{ (phase1Go blobs 0 o.upload).uploadResults.get ⟨k, hk'⟩ with
    collectionStatus := some (phase2ItemStatus (o.collect (0 + k))).status },
    ?_, rfl, ?_, rfl, rfl, rfl, ?_, ?_⟩
  · show (finalResultsOf env o blobs).get? k = _
    rw [hfin]
    exact phase2Expected_get o.collect _ 0 k hk'
  · show ((phase1Go blobs 0 o.upload).uploadResults.get ⟨k, hk'⟩).status = "uploaded"
    exact (phase1Go_status blobs 0 o.upload _ (List.get_mem _ _ _)).1
  · show some (phase2ItemStatus (o.collect (0 + k))).status
        = some "collection-failed"
    rw [Nat.zero_add, hstat]
  · rw [runCalls_traces env o blobs hm hl hen]
    refine ⟨⟨((phase1Go blobs 0 o.upload).uploadedFiles.get ⟨k, hk⟩).id,
      (phase2ItemStatus (o.collect (0 + k))).statusCalls,
      (phase2ItemStatus (o.collect (0 + k))).addCalls⟩,
      phase2Traces_get _ 0 k hk o.collect, ?_⟩
    show (phase2ItemStatus (o.collect (0 + k))).addCalls = 1
    rw [Nat.zero_add, hstat]

/-- C6 witness: ready item, failing add call: entry keeps its upload
fields, gains collection-failed, one add call. -/
theorem C6_witness :
    ∃ s : Summary, runSync envFull oraAddFail = SyncResponse.report s ∧
      ∃ r0 : SyncResult,
        (phase1Go [sampleBlob] 0 oraAddFail.upload).uploadResults.get? 0 = some r0 ∧
        ∃ r : SyncResult, s.results.get? 0 = some r ∧
          r.file = r0.file ∧ r.status = "uploaded" ∧
          r.openWebUIId = r0.openWebUIId ∧ r.size = r0.size ∧
          r.uploadedAt = r0.uploadedAt ∧
          r.collectionStatus = some "collection-failed" ∧
          ∃ t : ItemTrace, (runCalls envFull oraAddFail).get? 0 = some t ∧
            t.addCalls = 1 :=
  C6_preserved_on_add_failure envFull oraAddFail [sampleBlob] 0 (by decide) rfl
    (by decide) (by decide) (by decide) (by decide) (by decide) (by decide)

end SyncDocs
